import Mathlib

/-!
Verification of the `image_transport` subscription layer
(`image_transport/image_subscriber.h`).

The repository ships the `ImageSubscriber` class declaration: a copyable
handle around a `boost::shared_ptr<Impl>`, with `subscribe` overloads that
delegate to a general overload, identity-based comparison operators, a
`getTopic`/`shutdown` surface, and an `operator void*` null test.  The
`Impl` body, the transport negotiator, the decoder registry and the
dispatch path are not part of the shipped source, so those components are
modelled from the specification (marked `Modelled from the spec:` below);
the inline overload delegations and the comparison operators are embedded
directly from the header.
-/

namespace ImageTransport

/-! ## Subscription lifecycle (shared implementation, handles, shutdown) -/

/-- Events that handles sharing one Subscription Implementation can undergo:
copying a live handle, destroying a handle, or calling `shutdown()` through
a handle. -/
inductive HEvent where
  | copy
  | destroy
  | shutdown
deriving DecidableEq, Repr

/-- Shared state of one Subscription Implementation: the number of live
handles referencing it and whether it has been terminated (bus
subscription torn down). -/
structure LifeState where
  refs : Nat
  terminated : Bool
deriving DecidableEq, Repr

/-- Modelled from the spec: the effect of one handle event on the shared
implementation state (the `Impl` body is not in the shipped source).
Copying a handle increments the shared-ownership count.  Destroying the
last handle of a non-terminated implementation tears down the bus
subscription (behaves as though `shutdown()` were called).  `shutdown()`
tears down the bus subscription immediately when the implementation is not
yet terminated and is a no-op afterwards (idempotent).  The second
component reports whether this event performed the bus-subscription
teardown. -/
def lifeStep (s : LifeState) : HEvent → LifeState × Bool
  | .copy => ({ s with refs := s.refs + 1 }, false)
  | .destroy =>
      if s.refs - 1 = 0 ∧ s.terminated = false then
        ({ refs := 0, terminated := true }, true)
      else
        ({ s with refs := s.refs - 1 }, false)
  | .shutdown =>
      if s.terminated then (s, false)
      else ({ s with terminated := true }, true)

/-- Run a sequence of handle events from a state. -/
def lifeRun (s : LifeState) : List HEvent → LifeState
  | [] => s
  | e :: es => lifeRun (lifeStep s e).1 es

/-- Total number of bus-subscription teardowns performed along a trace. -/
def teardowns (s : LifeState) : List HEvent → Nat
  | [] => 0
  | e :: es => (if (lifeStep s e).2 then 1 else 0) + teardowns (lifeStep s e).1 es

/-- A trace is well formed from a state when every event is performed
through a live handle: the reference count is positive at each step. -/
def wfRun : LifeState → List HEvent → Bool
  | _, [] => true
  | s, e :: es => decide (0 < s.refs) && wfRun (lifeStep s e).1 es

/-- Well-formedness of a handle-event trace as a proposition. -/
def wfTrace (s : LifeState) (tr : List HEvent) : Prop := wfRun s tr = true

instance (s : LifeState) (tr : List HEvent) : Decidable (wfTrace s tr) := by
  unfold wfTrace; infer_instance

/-- The state of an implementation freshly created by `subscribe()`: one
handle references it and it is not terminated. -/
def initLife : LifeState := { refs := 1, terminated := false }

theorem lifeStep_snd_eq (s : LifeState) (e : HEvent) :
    (lifeStep s e).2 = (!s.terminated && (lifeStep s e).1.terminated) := by
  cases e with
  | copy => simp [lifeStep]
  | destroy =>
      by_cases h : s.refs - 1 = 0 ∧ s.terminated = false
      · simp [lifeStep, h, h.2]
      · simp only [lifeStep, if_neg h]
        cases hterm : s.terminated <;> simp [hterm]
  | shutdown =>
      by_cases h : s.terminated
      · simp [lifeStep, h]
      · simp [lifeStep, h]

theorem lifeStep_terminated_mono (s : LifeState) (e : HEvent)
    (h : s.terminated = true) : (lifeStep s e).1.terminated = true := by
  cases e with
  | copy => simp [lifeStep, h]
  | destroy => simp [lifeStep, h]
  | shutdown => simp [lifeStep, h]

theorem lifeRun_terminated_mono (s : LifeState) (tr : List HEvent)
    (h : s.terminated = true) : (lifeRun s tr).terminated = true := by
  induction tr generalizing s with
  | nil => simpa [lifeRun] using h
  | cons e es ih => exact ih _ (lifeStep_terminated_mono s e h)

/-- Along any trace, the teardown count is exactly the indicator of the
terminated flag flipping from false to true. -/
theorem teardowns_eq_flip (s : LifeState) (tr : List HEvent) :
    teardowns s tr =
      (if s.terminated = false ∧ (lifeRun s tr).terminated = true then 1 else 0) := by
  induction tr generalizing s with
  | nil =>
      simp only [teardowns, lifeRun]
      by_cases h : s.terminated = false
      · simp [h]
      · simp [h]
  | cons e es ih =>
      simp only [teardowns, lifeRun, lifeStep_snd_eq, ih]
      cases hs : s.terminated with
      | false =>
          cases hs2 : (lifeStep s e).1.terminated with
          | false => simp [hs2]
          | true =>
              have hfin : (lifeRun (lifeStep s e).1 es).terminated = true :=
                lifeRun_terminated_mono _ es hs2
              simp [hs2, hfin]
      | true =>
          have := lifeStep_terminated_mono s e hs
          simp [this]

/-- Invariant: once the reference count is zero the implementation is
terminated (for states reachable from `initLife`). -/
theorem lifeRun_refs_zero_terminated (tr : List HEvent) :
    (lifeRun initLife tr).refs = 0 → (lifeRun initLife tr).terminated = true := by
  suffices h : ∀ (tr : List HEvent) (s : LifeState),
      (s.refs = 0 → s.terminated = true) →
      (lifeRun s tr).refs = 0 → (lifeRun s tr).terminated = true by
    exact h tr initLife (by intro hc; simp [initLife] at hc)
  intro tr
  induction tr with
  | nil => intro s hs; simpa [lifeRun] using hs
  | cons e es ih =>
      intro s hs
      refine ih (lifeStep s e).1 ?_
      intro hz
      cases e with
      | copy => simp [lifeStep] at hz
      | destroy =>
          by_cases h : s.refs - 1 = 0 ∧ s.terminated = false
          · simp [lifeStep, h]
          · simp only [lifeStep, if_neg h] at hz ⊢
            rcases not_and_or.mp h with h1 | h2
            · exact absurd hz h1
            · simpa using h2
      | shutdown =>
          by_cases h : s.terminated
          · simp [lifeStep, h]
          · simp [lifeStep, h]

theorem lifeRun_shutdown_terminated (s : LifeState) (tr : List HEvent)
    (hmem : HEvent.shutdown ∈ tr) : (lifeRun s tr).terminated = true := by
  induction tr generalizing s with
  | nil => cases hmem
  | cons e es ih =>
      rcases List.mem_cons.mp hmem with he | he
      · subst he
        refine lifeRun_terminated_mono _ es ?_
        by_cases h : s.terminated
        · simp [lifeStep, h]
        · simp [lifeStep, h]
      · exact ih _ he

/-- On a well-formed trace with no shutdown call and a handle still alive
at the end, the implementation is never terminated. -/
theorem lifeRun_not_terminated (tr : List HEvent)
    (hwf : wfTrace initLife tr)
    (hns : HEvent.shutdown ∉ tr) (hlive : (lifeRun initLife tr).refs ≠ 0) :
    (lifeRun initLife tr).terminated = false := by
  suffices h : ∀ (tr : List HEvent) (s : LifeState),
      wfTrace s tr → HEvent.shutdown ∉ tr → s.terminated = false →
      (lifeRun s tr).refs ≠ 0 → (lifeRun s tr).terminated = false by
    exact h tr initLife hwf hns rfl hlive
  intro tr
  induction tr with
  | nil =>
      intro s _ _ hterm _
      simpa [lifeRun] using hterm
  | cons e es ih =>
      intro s hwf hns hterm hlive
      have hwf2 : wfTrace (lifeStep s e).1 es := by
        have := hwf
        simp only [wfTrace, wfRun, Bool.and_eq_true] at this
        exact this.2
      cases e with
      | copy =>
          exact ih _ hwf2 (fun hm => hns (List.mem_cons_of_mem _ hm))
            (by simpa [lifeStep] using hterm) hlive
      | destroy =>
          by_cases h : s.refs - 1 = 0 ∧ s.terminated = false
          · -- last-handle destroy: refs drops to 0 and, being well formed,
            -- the trace must end here, contradicting hlive
            exfalso
            apply hlive
            have hstep : (lifeStep s .destroy).1 = { refs := 0, terminated := true } := by
              simp [lifeStep, h]
            cases es with
            | nil => simp [lifeRun, hstep]
            | cons e2 es2 =>
                exfalso
                rw [hstep] at hwf2
                simp [wfTrace, wfRun] at hwf2
          · exact ih _ hwf2 (fun hm => hns (List.mem_cons_of_mem _ hm))
              (by simp only [lifeStep, if_neg h]; exact hterm) hlive
      | shutdown =>
          exact absurd (List.mem_cons_self _ _) hns

/-- C1: for every well-formed sequence of handle copies, destructions and
`shutdown()` calls on handles sharing one Subscription Implementation, the
underlying bus subscription is torn down at most once; it is torn down
exactly once precisely when the last handle is destroyed or some
`shutdown()` occurs; once the implementation is terminated no further
event performs teardown (shutdown is idempotent); and a step performs the
teardown exactly when it is a `shutdown()` on a non-terminated
implementation or the destruction of its last handle. -/
theorem c1_teardown_exactly_once (tr : List HEvent) (hwf : wfTrace initLife tr) :
    teardowns initLife tr ≤ 1
    ∧ (teardowns initLife tr = 1 ↔
        ((lifeRun initLife tr).refs = 0 ∨ HEvent.shutdown ∈ tr))
    ∧ (∀ (s : LifeState) (e : HEvent), s.terminated = true → (lifeStep s e).2 = false)
    ∧ (∀ (s : LifeState) (e : HEvent), s.terminated = false → 0 < s.refs →
        ((lifeStep s e).2 = true ↔
          (e = HEvent.shutdown ∨ (e = HEvent.destroy ∧ s.refs = 1)))) := by
  have hflip := teardowns_eq_flip initLife tr
  have hinit : initLife.terminated = false := rfl
  rw [hinit] at hflip
  simp only [true_and] at hflip
  refine ⟨?_, ?_, ?_, ?_⟩
  · rw [hflip]; split <;> simp
  · rw [hflip]
    constructor
    · intro h1
      have hterm : (lifeRun initLife tr).terminated = true := by
        by_contra hc
        simp [hc] at h1
      by_contra hc
      push_neg at hc
      have := lifeRun_not_terminated tr hwf hc.2 hc.1
      rw [this] at hterm
      cases hterm
    · intro h
      rcases h with h | h
      · simp [lifeRun_refs_zero_terminated tr h]
      · simp [lifeRun_shutdown_terminated initLife tr h]
  · intro s e hterm
    rw [lifeStep_snd_eq, hterm]
    simp
  · intro s e hterm hpos
    cases e with
    | copy => simp [lifeStep]
    | destroy =>
        by_cases h : s.refs - 1 = 0 ∧ s.terminated = false
        · have : s.refs = 1 := by omega
          simp [lifeStep, h, this]
        · have : ¬ s.refs = 1 := by
            intro hc
            exact h ⟨by omega, hterm⟩
          simp only [lifeStep, if_neg h]
          simp [this]
    | shutdown => simp [lifeStep, hterm]

theorem c1_teardown_exactly_once_witness :
    wfTrace initLife
        [HEvent.copy, HEvent.destroy, HEvent.shutdown, HEvent.shutdown, HEvent.destroy]
    ∧ teardowns initLife
        [HEvent.copy, HEvent.destroy, HEvent.shutdown, HEvent.shutdown, HEvent.destroy] ≤ 1 :=
  ⟨by decide,
   (c1_teardown_exactly_once
      [HEvent.copy, HEvent.destroy, HEvent.shutdown, HEvent.shutdown, HEvent.destroy]
      (by decide)).1⟩

/-! ## Dispatch path -/

/-- Outcome of one Dispatch Path invocation: the user callback is invoked
with a decoded image, the message is dropped silently (terminated
implementation or expired tracked object), or a decode error is logged and
the message dropped. -/
inductive DispatchResult where
  | invoked (img : Nat)
  | droppedSilently
  | decodeErrorLogged
deriving DecidableEq, Repr

/-- Modelled from the spec: one Dispatch Path step (§4.6; the dispatch code
is not in the shipped source).  Drop silently when the implementation is
terminated; drop silently when a tracked object was supplied and has
expired; otherwise decode, logging-and-dropping a decode failure, and
invoke the user callback on success. -/
def dispatchOne (hasTracked : Bool) (decode : Nat → Option Nat)
    (terminated trackedAlive : Bool) (m : Nat) : DispatchResult :=
  if terminated then DispatchResult.droppedSilently
  else if hasTracked && !trackedAlive then DispatchResult.droppedSilently
  else
    match decode m with
    | some img => DispatchResult.invoked img
    | none => DispatchResult.decodeErrorLogged

/-- Events arriving at one subscription, in bus-delivery order: a raw
message delivery (with the liveness of the tracked object at that moment)
or a shutdown request. -/
inductive DEvent where
  | deliver (m : Nat) (trackedAlive : Bool)
  | shutdownReq
deriving DecidableEq, Repr

/-- Modelled from the spec: serialized processing of one subscription's
event trace (§4.6, §5: the bus never invokes the same subscription's
dispatch concurrently, so per-subscription processing is a linear fold).
Returns the decoded images passed to the user callback, in invocation
order. -/
def dispatchRun (hasTracked : Bool) (decode : Nat → Option Nat) :
    Bool → List DEvent → List Nat
  | _, [] => []
  | term, DEvent.deliver m alive :: es =>
      match dispatchOne hasTracked decode term alive m with
      | DispatchResult.invoked img => img :: dispatchRun hasTracked decode term es
      | _ => dispatchRun hasTracked decode term es
  | _, DEvent.shutdownReq :: es => dispatchRun hasTracked decode true es

/-- The raw messages delivered by the bus along a trace, in delivery order. -/
def delivered : List DEvent → List Nat
  | [] => []
  | DEvent.deliver m _ :: es => m :: delivered es
  | DEvent.shutdownReq :: es => delivered es

theorem dispatchRun_terminated (h : Bool) (d : Nat → Option Nat)
    (es : List DEvent) : dispatchRun h d true es = [] := by
  induction es with
  | nil => rfl
  | cons e es ih =>
      cases e with
      | deliver m alive => simp [dispatchRun, dispatchOne, ih]
      | shutdownReq => simp [dispatchRun, ih]

/-- Callback invocations are a subsequence of the successfully decodable
delivered messages, in delivery order. -/
theorem dispatchRun_sublist (h : Bool) (d : Nat → Option Nat)
    (es : List DEvent) (term : Bool) :
    List.Sublist (dispatchRun h d term es) (List.filterMap d (delivered es)) := by
  induction es generalizing term with
  | nil => simp [dispatchRun, delivered]
  | cons e es ih =>
      cases e with
      | shutdownReq =>
          rw [show dispatchRun h d term (DEvent.shutdownReq :: es)
                = dispatchRun h d true es from by simp [dispatchRun],
              show delivered (DEvent.shutdownReq :: es) = delivered es from rfl]
          exact ih true
      | deliver m alive =>
          rw [show delivered (DEvent.deliver m alive :: es) = m :: delivered es from rfl,
              List.filterMap_cons]
          cases term with
          | true =>
              rw [dispatchRun_terminated]
              cases d m with
              | none => exact List.nil_sublist _
              | some img => exact List.nil_sublist _
          | false =>
              by_cases htr : (h && !alive) = true
              · have hstep : dispatchOne h d false alive m
                    = DispatchResult.droppedSilently := by
                  simp [dispatchOne, htr]
                rw [show dispatchRun h d false (DEvent.deliver m alive :: es)
                      = dispatchRun h d false es from by simp [dispatchRun, hstep]]
                cases d m with
                | none => exact ih false
                | some img => exact List.Sublist.cons _ (ih false)
              · cases hd : d m with
                | some img =>
                    have hstep : dispatchOne h d false alive m
                        = DispatchResult.invoked img := by
                      simp [dispatchOne, htr, hd]
                    rw [show dispatchRun h d false (DEvent.deliver m alive :: es)
                          = img :: dispatchRun h d false es from by
                        simp [dispatchRun, hstep]]
                    exact List.Sublist.cons₂ _ (ih false)
                | none =>
                    have hstep : dispatchOne h d false alive m
                        = DispatchResult.decodeErrorLogged := by
                      simp [dispatchOne, htr, hd]
                    rw [show dispatchRun h d false (DEvent.deliver m alive :: es)
                          = dispatchRun h d false es from by simp [dispatchRun, hstep]]
                    exact ih false

/-- Everything delivered at or after a shutdown request is dropped: the
invocation list of a trace with a shutdown request equals that of its
prefix before the request. -/
theorem dispatchRun_shutdown_absorb (h : Bool) (d : Nat → Option Nat)
    (es1 es2 : List DEvent) (term : Bool) :
    dispatchRun h d term (es1 ++ DEvent.shutdownReq :: es2)
      = dispatchRun h d term es1 := by
  induction es1 generalizing term with
  | nil =>
      simp [dispatchRun, dispatchRun_terminated]
  | cons e es ih =>
      cases e with
      | deliver m alive =>
          rw [List.cons_append]
          cases hres : dispatchOne h d term alive m <;>
            simp [dispatchRun, hres, ih term]
      | shutdownReq =>
          rw [List.cons_append]
          rw [show dispatchRun h d term (DEvent.shutdownReq :: (es ++ DEvent.shutdownReq :: es2))
                = dispatchRun h d true (es ++ DEvent.shutdownReq :: es2) from by
              simp [dispatchRun]]
          rw [show dispatchRun h d term (DEvent.shutdownReq :: es)
                = dispatchRun h d true es from by simp [dispatchRun]]
          exact ih true

/-- C2: per-subscription dispatch is a serialized fold over the delivery
trace (invocations are produced one at a time, so none overlap); callback
invocations occur in the same relative order as message delivery (the
invocation list is a sublist of the decodable delivered messages in
delivery order); no invocation arises from any event at or after a
shutdown request (in-flight messages are dropped, not queued); and a
terminated implementation never invokes the callback again. -/
theorem c2_serialized_ordered_dispatch (hasTracked : Bool)
    (decode : Nat → Option Nat) (es es1 es2 : List DEvent) :
    List.Sublist (dispatchRun hasTracked decode false es)
        (List.filterMap decode (delivered es))
    ∧ dispatchRun hasTracked decode false (es1 ++ DEvent.shutdownReq :: es2)
        = dispatchRun hasTracked decode false es1
    ∧ (∀ es3 : List DEvent, dispatchRun hasTracked decode true es3 = []) :=
  ⟨dispatchRun_sublist hasTracked decode es false,
   dispatchRun_shutdown_absorb hasTracked decode es1 es2 false,
   fun es3 => dispatchRun_terminated hasTracked decode es3⟩

/-- C9: when a tracked object was supplied and has been destroyed before a
message arrives, the Dispatch Path suppresses the user callback for that
message and raises no error: the outcome is a silent drop (not an
invocation and not a logged decode error), whatever the decoder and the
termination state. -/
theorem c9_expired_tracked_object_suppresses (decode : Nat → Option Nat)
    (terminated : Bool) (m : Nat) :
    dispatchOne true decode terminated false m
      = DispatchResult.droppedSilently := by
  cases terminated <;> simp [dispatchOne]

/-! ## Transport negotiation and the subscribe entry point -/

/-- Errors surfaced synchronously by `subscribe()` (§7). -/
inductive SubError where
  | UnknownTransportRequested
  | NoTransportAvailable
deriving DecidableEq, Repr

/-- Modelled from the spec: the transport candidates for a base topic — the
registered decoder types whose sub-topic is actually advertised on the bus,
kept in decoder-registration order (the negotiator is not in the shipped
source). -/
def presentCandidates (registered advertised : List String) : List String :=
  registered.filter (fun t => advertised.contains t)

/-- Modelled from the spec: default transport selection among the present
candidates — "raw" if present, otherwise the first present candidate in
registration order. -/
def selectDefault (present : List String) : Option String :=
  if present.contains "raw" then some "raw" else present.head?

/-- Modelled from the spec: transport selection (§4.1) — the preferred
transport when given and present, otherwise "raw" when present, otherwise
the first present candidate in registration order; `none` when no
candidate is present. -/
def selectTransport (registered advertised : List String)
    (preferred : Option String) : Option String :=
  let present := presentCandidates registered advertised
  match preferred with
  | some p => if present.contains p then some p else selectDefault present
  | none => selectDefault present

/-- A Subscription Implementation record as built by `subscribe()`: its
identity, the original base topic, the negotiated transport, the bus-level
subscription it owns and its termination flag. -/
structure Impl where
  id : Nat
  topic : String
  transport : String
  busSub : Nat
  terminated : Bool
deriving DecidableEq, Repr

/-- Bus-facing system state: the identifiers of the live bus-level
subscriptions and a fresh-identity counter. -/
structure SysState where
  busSubs : List Nat
  nextId : Nat
deriving DecidableEq, Repr

/-- Modelled from the spec: the negotiation-and-creation part of
`subscribe()` — run transport selection; on failure report
`NoTransportAvailable` and leave the state untouched; on success create
one bus subscription and a fresh implementation recording the original
base topic. -/
def subscribeNegotiate (registered advertised : List String) (topic : String)
    (preferred : Option String) (st : SysState) :
    Except SubError Impl × SysState :=
  match selectTransport registered advertised preferred with
  | none => (Except.error SubError.NoTransportAvailable, st)
  | some t =>
      (Except.ok { id := st.nextId, topic := topic, transport := t,
                   busSub := st.nextId, terminated := false },
       { busSubs := st.nextId :: st.busSubs, nextId := st.nextId + 1 })

/-- Modelled from the spec: the `subscribe()` entry point (§4.5, §7) — an
explicit transport preference naming a type with no registered decoder
fails fast with `UnknownTransportRequested` before negotiation touches the
bus; otherwise negotiation runs. -/
def subscribe (registered advertised : List String) (topic : String)
    (preferred : Option String) (st : SysState) :
    Except SubError Impl × SysState :=
  match preferred with
  | some p =>
      if registered.contains p then
        subscribeNegotiate registered advertised topic (some p) st
      else (Except.error SubError.UnknownTransportRequested, st)
  | none => subscribeNegotiate registered advertised topic none st

theorem selectTransport_isSome (registered advertised : List String)
    (preferred : Option String)
    (hne : presentCandidates registered advertised ≠ []) :
    (selectTransport registered advertised preferred).isSome = true := by
  have hdef : (selectDefault (presentCandidates registered advertised)).isSome = true := by
    unfold selectDefault
    split
    · rfl
    · cases hp : presentCandidates registered advertised with
      | nil => exact absurd hp hne
      | cons a l => simp [hp]
  cases preferred with
  | none => simpa [selectTransport] using hdef
  | some p =>
      simp only [selectTransport]
      by_cases hmem : p ∈ presentCandidates registered advertised
      · rw [if_pos (by simp [hmem])]
        rfl
      · rw [if_neg (by simp [hmem])]
        exact hdef

/-- C3: negotiation selection order — a given preferred transport that is
present among the candidates is chosen; otherwise "raw" is chosen when
present; otherwise the first present candidate in decoder-registration
order is chosen. -/
theorem c3_selection_order (registered advertised : List String)
    (preferred : Option String) :
    (∀ p, preferred = some p → p ∈ presentCandidates registered advertised →
        selectTransport registered advertised preferred = some p)
    ∧ ((∀ p, preferred = some p → p ∉ presentCandidates registered advertised) →
        "raw" ∈ presentCandidates registered advertised →
        selectTransport registered advertised preferred = some "raw")
    ∧ ((∀ p, preferred = some p → p ∉ presentCandidates registered advertised) →
        "raw" ∉ presentCandidates registered advertised →
        selectTransport registered advertised preferred
          = (presentCandidates registered advertised).head?) := by
  refine ⟨?_, ?_, ?_⟩
  · intro p hp hmem
    subst hp
    simp [selectTransport, hmem]
  · intro hpref hraw
    cases preferred with
    | none => simp [selectTransport, selectDefault, hraw]
    | some p =>
        have hnp := hpref p rfl
        simp [selectTransport, selectDefault, hnp, hraw]
  · intro hpref hraw
    cases preferred with
    | none => simp [selectTransport, selectDefault, hraw]
    | some p =>
        have hnp := hpref p rfl
        simp [selectTransport, selectDefault, hnp, hraw]

theorem c3_selection_order_witness :
    selectTransport ["raw", "compressed"] ["compressed", "raw"] (some "compressed")
      = some "compressed"
    ∧ selectTransport ["raw", "compressed"] ["raw"] none = some "raw" :=
  ⟨(c3_selection_order ["raw", "compressed"] ["compressed", "raw"]
      (some "compressed")).1 "compressed" rfl (by decide),
   (c3_selection_order ["raw", "compressed"] ["raw"] none).2.1
      (fun p hp => by cases hp) (by decide)⟩

/-- C4: a transport preference naming a type with no registered decoder
makes `subscribe()` fail synchronously with `UnknownTransportRequested`
(no silent fallback) before any bus subscription is created: the system
state is returned unchanged. -/
theorem c4_unknown_transport_fails_fast (registered advertised : List String)
    (topic p : String) (st : SysState) (h : p ∉ registered) :
    subscribe registered advertised topic (some p) st
      = (Except.error SubError.UnknownTransportRequested, st) := by
  simp [subscribe, h]

theorem c4_unknown_transport_fails_fast_witness :
    subscribe ["raw", "compressed"] ["raw"] "camera/image" (some "unknown-codec")
        { busSubs := [], nextId := 0 }
      = (Except.error SubError.UnknownTransportRequested,
         { busSubs := [], nextId := 0 }) :=
  c4_unknown_transport_fails_fast ["raw", "compressed"] ["raw"] "camera/image"
    "unknown-codec" { busSubs := [], nextId := 0 } (by decide)

/-- C5: when no compatible candidate sub-topic is advertised for the base
topic (and any explicit preference names a registered type, so C4's fail
fast path does not apply), `subscribe()` fails with `NoTransportAvailable`
and the state — in particular the bus-subscription list — is unchanged;
the condition is recoverable: with at least one registered transport, the
same call against a bus that advertises the registered transports
succeeds. -/
theorem c5_no_transport_available (registered advertised : List String)
    (topic : String) (preferred : Option String) (st : SysState)
    (hpref : ∀ p, preferred = some p → p ∈ registered)
    (hnone : presentCandidates registered advertised = []) :
    subscribe registered advertised topic preferred st
      = (Except.error SubError.NoTransportAvailable, st)
    ∧ (registered ≠ [] → ∃ impl : Impl,
        (subscribe registered registered topic preferred st).1 = Except.ok impl) := by
  have hsel : selectTransport registered advertised preferred = none := by
    cases preferred with
    | none => simp [selectTransport, selectDefault, hnone]
    | some p => simp [selectTransport, selectDefault, hnone]
  constructor
  · cases preferred with
    | none => simp [subscribe, subscribeNegotiate, hsel]
    | some p =>
        have hmem := hpref p rfl
        simp [subscribe, subscribeNegotiate, hsel, hmem]
  · intro hne
    have hpres : presentCandidates registered registered = registered := by
      apply List.filter_eq_self.mpr
      intro a ha
      simp [ha]
    have hps : (selectTransport registered registered preferred).isSome = true := by
      apply selectTransport_isSome
      rw [hpres]; exact hne
    obtain ⟨t, ht⟩ := Option.isSome_iff_exists.mp hps
    cases preferred with
    | none =>
        simp [subscribe, subscribeNegotiate, ht]
    | some p =>
        have hmem := hpref p rfl
        simp [subscribe, subscribeNegotiate, ht, hmem]

theorem c5_no_transport_available_witness :
    subscribe ["raw"] [] "camera/image" none { busSubs := [], nextId := 0 }
      = (Except.error SubError.NoTransportAvailable, { busSubs := [], nextId := 0 })
    ∧ ∃ impl : Impl,
        (subscribe ["raw"] ["raw"] "camera/image" none
            { busSubs := [], nextId := 0 }).1 = Except.ok impl :=
  ⟨(c5_no_transport_available ["raw"] [] "camera/image" none
      { busSubs := [], nextId := 0 } (fun p hp => by cases hp) (by decide)).1,
   (c5_no_transport_available ["raw"] [] "camera/image" none
      { busSubs := [], nextId := 0 } (fun p hp => by cases hp) (by decide)).2
     (by decide)⟩

/-! ## Subscription handles -/

/-- A subscription handle: the `boost::shared_ptr<Impl>` member `impl_` of
`ImageSubscriber`, modelled as an optional implementation identity
(`none` is the null pointer produced by the default constructor). -/
structure ImageSubscriber where
  impl : Option Nat
deriving DecidableEq, Repr

/-- The default-constructed handle: its `impl_` is a null `shared_ptr`. -/
def defaultHandle : ImageSubscriber := { impl := none }

/-- Copy construction (`ImageSubscriber(const ImageSubscriber&)`): the copy
shares the same implementation, by `boost::shared_ptr` copy semantics. -/
def copyHandle (h : ImageSubscriber) : ImageSubscriber := h

/-- The stored pointer value of the handle's `shared_ptr`: 0 for the null
pointer, and a positive address determined by the implementation's
identity otherwise. -/
def ptrVal (h : ImageSubscriber) : Nat :=
  match h.impl with
  | none => 0
  | some i => i + 1

/-- From the header: `operator==` returns `impl_ == rhs.impl_`
(`shared_ptr` pointer equality, i.e. identity of the implementation). -/
def hEq (a b : ImageSubscriber) : Bool := ptrVal a == ptrVal b

/-- From the header: `operator!=` returns `impl_ != rhs.impl_`. -/
def hNe (a b : ImageSubscriber) : Bool := ptrVal a != ptrVal b

/-- From the header: `operator<` returns `impl_ < rhs.impl_` (pointer
order, i.e. order on the identity of the implementation). -/
def hLt (a b : ImageSubscriber) : Bool := decide (ptrVal a < ptrVal b)

/-- Modelled from the spec: `getTopic()` returns the original base topic
stored in the referenced implementation; on a null handle it returns the
empty topic (the member body is not in the shipped source).  `impls` is
the heap of implementation objects keyed by identity. -/
def getTopic (impls : List (Nat × Impl)) (h : ImageSubscriber) : String :=
  match h.impl with
  | none => ""
  | some i =>
      match impls.lookup i with
      | some impl => impl.topic
      | none => ""

/-- Modelled from the spec: the `operator void*` null test — true iff the
handle references a non-terminated implementation (the operator body is
not in the shipped source). -/
def boolTest (impls : List (Nat × Impl)) (h : ImageSubscriber) : Bool :=
  match h.impl with
  | none => false
  | some i =>
      match impls.lookup i with
      | some impl => !impl.terminated
      | none => false

/-- Modelled from the spec: `shutdown()` marks the referenced shared
implementation terminated, so every handle referencing it observes the
null/falsy state thereafter. -/
def shutdownImpl (impls : List (Nat × Impl)) (i : Nat) : List (Nat × Impl) :=
  impls.map (fun p => if p.1 = i then (p.1, { p.2 with terminated := true }) else p)

theorem lookup_shutdownImpl (impls : List (Nat × Impl)) (i : Nat) :
    (shutdownImpl impls i).lookup i
      = (impls.lookup i).map (fun impl => { impl with terminated := true }) := by
  induction impls with
  | nil => rfl
  | cons p ps ih =>
      obtain ⟨k, v⟩ := p
      simp only [shutdownImpl, List.map_cons] at ih ⊢
      by_cases hk : k = i
      · subst hk
        rw [if_pos rfl]
        simp [List.lookup]
      · rw [if_neg (by simpa using hk)]
        have hik : (i == k) = false := by
          simp [Ne.symm hk]
        simp only [List.lookup, hik]
        exact ih

/-- Every successful `subscribe()` stores the requested base topic and a
fresh identity, and advances the identity counter. -/
theorem subscribe_ok_fields (registered advertised : List String) (topic : String)
    (preferred : Option String) (st : SysState) (impl : Impl) (st2 : SysState)
    (hok : subscribe registered advertised topic preferred st = (Except.ok impl, st2)) :
    impl.topic = topic ∧ impl.id = st.nextId ∧ st2.nextId = st.nextId + 1 := by
  cases preferred with
  | none =>
      cases hsel : selectTransport registered advertised none with
      | none => simp [subscribe, subscribeNegotiate, hsel] at hok
      | some t =>
          simp only [subscribe, subscribeNegotiate, hsel] at hok
          rw [Prod.mk.injEq] at hok
          obtain ⟨h1, h2⟩ := hok
          rw [Except.ok.injEq] at h1
          subst h1
          subst h2
          exact ⟨rfl, rfl, rfl⟩
  | some p =>
      by_cases hr : p ∈ registered
      · cases hsel : selectTransport registered advertised (some p) with
        | none => simp [subscribe, subscribeNegotiate, hsel, hr] at hok
        | some t =>
            simp only [subscribe] at hok
            rw [if_pos (by simp [hr])] at hok
            simp only [subscribeNegotiate, hsel] at hok
            rw [Prod.mk.injEq] at hok
            obtain ⟨h1, h2⟩ := hok
            rw [Except.ok.injEq] at h1
            subst h1
            subst h2
            exact ⟨rfl, rfl, rfl⟩
      · simp [subscribe, hr] at hok

/-- C6: every successful `subscribe()` stores the originally requested base
topic in the implementation, whatever transport was negotiated, so
`getTopic()` on a handle referencing that implementation returns the base
topic; and `getTopic()` on a default-constructed (null) handle returns the
empty topic. -/
theorem c6_getTopic_returns_base_topic (registered advertised : List String)
    (topic : String) (preferred : Option String) (st : SysState)
    (impl : Impl) (st2 : SysState)
    (hok : subscribe registered advertised topic preferred st = (Except.ok impl, st2)) :
    impl.topic = topic
    ∧ getTopic [(impl.id, impl)] { impl := some impl.id } = topic
    ∧ (∀ impls : List (Nat × Impl), getTopic impls defaultHandle = "") := by
  have h := subscribe_ok_fields registered advertised topic preferred st impl st2 hok
  refine ⟨h.1, ?_, fun impls => rfl⟩
  simp [getTopic, List.lookup, h.1]

theorem c6_getTopic_returns_base_topic_witness :
    ∃ impl : Impl, ∃ st2 : SysState,
      subscribe ["raw"] ["raw"] "camera/image" none { busSubs := [], nextId := 0 }
        = (Except.ok impl, st2)
      ∧ impl.topic = "camera/image"
      ∧ getTopic [(impl.id, impl)] { impl := some impl.id } = "camera/image" :=
  ⟨{ id := 0, topic := "camera/image", transport := "raw", busSub := 0,
     terminated := false },
   { busSubs := [0], nextId := 1 },
   rfl,
   (c6_getTopic_returns_base_topic ["raw"] ["raw"] "camera/image" none
      { busSubs := [], nextId := 0 } _ _ rfl).1,
   (c6_getTopic_returns_base_topic ["raw"] ["raw"] "camera/image" none
      { busSubs := [], nextId := 0 } _ _ rfl).2.1⟩

/-- C7: `operator==` holds iff the two handles reference the same
implementation instance (identity); a copy compares equal to the original
(copies share the implementation); two implementations created by
independent `subscribe()` calls — even to the same topic — have distinct
identities, so their handles compare unequal; `operator!=` is the negation
of `operator==`; and `operator<` is a strict trichotomous order on the
identity of the referenced implementation. -/
theorem c7_identity_comparison :
    (∀ a b : ImageSubscriber, hEq a b = true ↔ a.impl = b.impl)
    ∧ (∀ a : ImageSubscriber, copyHandle a = a ∧ hEq (copyHandle a) a = true)
    ∧ (∀ (registered advertised : List String) (topic : String)
         (preferred : Option String) (st st2 st3 : SysState) (i1 i2 : Impl),
         subscribe registered advertised topic preferred st = (Except.ok i1, st2) →
         subscribe registered advertised topic preferred st2 = (Except.ok i2, st3) →
         hEq { impl := some i1.id } { impl := some i2.id } = false)
    ∧ (∀ a b : ImageSubscriber, hNe a b = !(hEq a b))
    ∧ (∀ a b : ImageSubscriber, hLt a b = true → hEq a b = false)
    ∧ (∀ a b : ImageSubscriber, hEq a b = true ∨ hLt a b = true ∨ hLt b a = true) := by
  have hptr : ∀ a b : ImageSubscriber, ptrVal a = ptrVal b ↔ a.impl = b.impl := by
    intro a b
    obtain ⟨oa⟩ := a
    obtain ⟨ob⟩ := b
    cases oa <;> cases ob <;> simp [ptrVal]
  refine ⟨?_, ?_, ?_, ?_, ?_, ?_⟩
  · intro a b
    rw [show hEq a b = (ptrVal a == ptrVal b) from rfl, beq_iff_eq]
    exact hptr a b
  · intro a
    exact ⟨rfl, by simp [hEq, copyHandle]⟩
  · intro registered advertised topic preferred st st2 st3 i1 i2 h1 h2
    have f1 := subscribe_ok_fields registered advertised topic preferred st i1 st2 h1
    have f2 := subscribe_ok_fields registered advertised topic preferred st2 i2 st3 h2
    have hne : i1.id ≠ i2.id := by
      rw [f1.2.1, f2.2.1, f1.2.2]
      omega
    simp [hEq, ptrVal]
    omega
  · intro a b
    rfl
  · intro a b hlt
    have : ptrVal a < ptrVal b := of_decide_eq_true hlt
    rw [show hEq a b = (ptrVal a == ptrVal b) from rfl]
    simp
    omega
  · intro a b
    rcases Nat.lt_trichotomy (ptrVal a) (ptrVal b) with h | h | h
    · exact Or.inr (Or.inl (by simp [hLt, h]))
    · exact Or.inl (by simp [hEq, h])
    · exact Or.inr (Or.inr (by simp [hLt, h]))

theorem c7_identity_comparison_witness :
    hEq { impl := some 0 } { impl := some 1 } = false :=
  c7_identity_comparison.2.2.1 ["raw"] ["raw"] "camera/image" none
    { busSubs := [], nextId := 0 } { busSubs := [0], nextId := 1 }
    { busSubs := [1, 0], nextId := 2 }
    { id := 0, topic := "camera/image", transport := "raw", busSub := 0,
      terminated := false }
    { id := 1, topic := "camera/image", transport := "raw", busSub := 1,
      terminated := false }
    rfl rfl

/-- C8: the boolean/null test is true iff the handle references a
non-terminated implementation: the default-constructed handle tests false;
a handle referencing a present implementation tests true iff that
implementation is not terminated; and after `shutdown()` marks the shared
implementation terminated, every handle referencing it tests false. -/
theorem c8_bool_null_test (impls : List (Nat × Impl)) (i : Nat) (impl : Impl)
    (hlook : impls.lookup i = some impl) :
    boolTest impls defaultHandle = false
    ∧ (boolTest impls { impl := some i } = true ↔ impl.terminated = false)
    ∧ (∀ h : ImageSubscriber, h.impl = some i →
        boolTest (shutdownImpl impls i) h = false) := by
  refine ⟨rfl, ?_, ?_⟩
  · simp [boolTest, hlook]
  · intro h hh
    obtain ⟨oh⟩ := h
    simp only at hh
    subst hh
    simp [boolTest, lookup_shutdownImpl, hlook]

theorem c8_bool_null_test_witness :
    boolTest [(0, { id := 0, topic := "camera/image", transport := "raw",
                    busSub := 0, terminated := false })] defaultHandle = false
    ∧ boolTest (shutdownImpl
        [(0, { id := 0, topic := "camera/image", transport := "raw",
               busSub := 0, terminated := false })] 0)
        { impl := some 0 } = false :=
  ⟨(c8_bool_null_test
      [(0, { id := 0, topic := "camera/image", transport := "raw",
             busSub := 0, terminated := false })] 0
      { id := 0, topic := "camera/image", transport := "raw",
        busSub := 0, terminated := false } rfl).1,
   (c8_bool_null_test
      [(0, { id := 0, topic := "camera/image", transport := "raw",
             busSub := 0, terminated := false })] 0
      { id := 0, topic := "camera/image", transport := "raw",
        busSub := 0, terminated := false } rfl).2.2
     { impl := some 0 } rfl⟩

/-! ## Subscribe overload delegation (inline in the header) -/

/-- A user callback value as it reaches the general overload: a bare
function pointer wrapped in `boost::function`, or `boost::bind(fp, obj, _1)`
binding a member-function pointer to an object pointer (pointers are
modelled by their addresses). -/
inductive CallbackV where
  | fn (fp : Nat)
  | bound (memberFp : Nat) (objPtr : Nat)
deriving DecidableEq, Repr

/-- A `boost::shared_ptr<T>` argument; `get` is the raw pointer returned
by `obj.get()`. -/
structure SharedPtr where
  get : Nat
deriving DecidableEq, Repr

/-- The argument tuple received by the general `subscribe` overload (the
one taking a `boost::function`, a `ros::VoidPtr` tracked object and
transport hints).  The header declares but does not define this overload,
so the embedding records exactly the arguments forwarded to it; a `none`
tracked object is the default-constructed null `ros::VoidPtr()`. -/
structure SubscribeArgs where
  topic : String
  queueSize : Nat
  callback : CallbackV
  trackedObject : Option Nat
  hints : Nat
deriving DecidableEq, Repr

/-- The general overload, as the tuple of arguments it receives. -/
def subscribeGeneral (topic : String) (queueSize : Nat) (cb : CallbackV)
    (tracked : Option Nat) (hints : Nat) : SubscribeArgs :=
  { topic := topic, queueSize := queueSize, callback := cb,
    trackedObject := tracked, hints := hints }

/-- From the header: the bare-function overload delegates to the general
overload with `boost::function(fp)` and a default-constructed
`ros::VoidPtr()`. -/
def subscribeBareFn (topic : String) (queueSize : Nat) (fp : Nat)
    (hints : Nat) : SubscribeArgs :=
  subscribeGeneral topic queueSize (CallbackV.fn fp) none hints

/-- From the header: the member-function-with-bare-pointer overload
delegates with `boost::bind(fp, obj, _1)` and a default-constructed
`ros::VoidPtr()`. -/
def subscribeMemberBare (topic : String) (queueSize : Nat) (fp obj : Nat)
    (hints : Nat) : SubscribeArgs :=
  subscribeGeneral topic queueSize (CallbackV.bound fp obj) none hints

/-- From the header: the member-function-with-shared_ptr overload delegates
with `boost::bind(fp, obj.get(), _1)` and `obj` itself as the tracked
object. -/
def subscribeMemberShared (topic : String) (queueSize : Nat) (fp : Nat)
    (obj : SharedPtr) (hints : Nat) : SubscribeArgs :=
  subscribeGeneral topic queueSize (CallbackV.bound fp obj.get)
    (some obj.get) hints

/-- C10: the bare-function and member-with-bare-pointer overloads are each
equivalent to the general overload called with the corresponding callback
and a null (empty) tracked object, so dispatch for subscriptions made
through them is never suppressed by liveness tracking (with no tracked
object and a non-terminated implementation, a message is never dropped
silently); the member-with-shared_ptr overload is equivalent to the
general overload called with the bound member callback and the shared_ptr
object itself as tracked object. -/
theorem c10_overload_delegation (topic : String) (queueSize : Nat)
    (fp obj hints : Nat) (sp : SharedPtr) :
    subscribeBareFn topic queueSize fp hints
      = subscribeGeneral topic queueSize (CallbackV.fn fp) none hints
    ∧ subscribeMemberBare topic queueSize fp obj hints
      = subscribeGeneral topic queueSize (CallbackV.bound fp obj) none hints
    ∧ subscribeMemberShared topic queueSize fp sp hints
      = subscribeGeneral topic queueSize (CallbackV.bound fp sp.get)
          (some sp.get) hints
    ∧ (subscribeBareFn topic queueSize fp hints).trackedObject = none
    ∧ (subscribeMemberBare topic queueSize fp obj hints).trackedObject = none
    ∧ (subscribeMemberShared topic queueSize fp sp hints).trackedObject
        = some sp.get
    ∧ (∀ (decode : Nat → Option Nat) (alive : Bool) (m : Nat),
        dispatchOne (subscribeBareFn topic queueSize fp hints).trackedObject.isSome
            decode false alive m ≠ DispatchResult.droppedSilently)
    ∧ (∀ (decode : Nat → Option Nat) (alive : Bool) (m : Nat),
        dispatchOne (subscribeMemberBare topic queueSize fp obj hints).trackedObject.isSome
            decode false alive m ≠ DispatchResult.droppedSilently) := by
  refine ⟨rfl, rfl, rfl, rfl, rfl, rfl, ?_, ?_⟩
  · intro decode alive m
    cases hd : decode m <;>
      simp [subscribeBareFn, subscribeGeneral, dispatchOne, hd]
  · intro decode alive m
    cases hd : decode m <;>
      simp [subscribeMemberBare, subscribeGeneral, dispatchOne, hd]
